import Mathlib

/-!
Verification development for the 3LLM comparison platform
(`LLMComparisonPlatform` React component and its helpers).

The component's pure logic is shallowly embedded here:

* the query-history data model (`QueryResponse`, `Responses`),
* the per-provider slot update issued when an adapter call resolves
  (`updateResponse`, embedding the `setQueryHistory(prev => prev.map ...)`
  closure inside `handleSearch`),
* history deletion (`handleDeleteQuery`),
* the new-record prepend performed synchronously by `handleSearch`,
* the follow-up prompt builder (`createPromptWithContext` and the
  `contextualPrompt` assembly in `handleSearch`),
* the three provider adapters (`callOpenAI`, `callGemini`,
  `callPerplexity`) with their try/catch error policy, with the HTTP
  world abstracted into a `CallOutcome` parameter,
* the file-upload handler (`handleFileUpload`) over an explicit state
  record,
* the text-size (zoom) handlers,
* the response normalizer `standardizeResponse`, embedded faithfully at
  the level of character lists (JS regex passes become explicit
  scanners; `/gm`-anchored rules become per-line maps).
-/

namespace ThreeLLM

/-! ## Data model

`QueryResponse` mirrors the TypeScript interface of the same name:
`{ query, timestamp, parentId?, responses: { perplexity, chatgpt, gemini } }`.
Timestamps (`Date.now()`) are modelled as naturals. -/

structure Responses where
  perplexity : String
  chatgpt : String
  gemini : String
  deriving DecidableEq, Repr

structure QueryResponse where
  query : String
  timestamp : Nat
  parentId : Option Nat
  responses : Responses
  deriving DecidableEq, Repr

/-- The three providers, keyed in the code by the strings
`'chatgpt'`, `'gemini'`, `'perplexity'`. -/
inductive Provider where
  | chatgpt
  | gemini
  | perplexity
  deriving DecidableEq, Repr

/-- Read one provider's slot of a response bundle. -/
def getSlot : Provider → Responses → String
  | .chatgpt, r => r.chatgpt
  | .gemini, r => r.gemini
  | .perplexity, r => r.perplexity

/-- The computed-key record update `{ ...q.responses, [llm]: v }`. -/
def setSlot : Provider → String → Responses → Responses
  | .chatgpt, v, r => { r with chatgpt := v }
  | .gemini, v, r => { r with gemini := v }
  | .perplexity, v, r => { r with perplexity := v }

/-! ## JS string trim

`String.prototype.trim`: strip whitespace from both ends.  The
whitespace characters relevant here are space, tab, newline and
carriage return. -/

def isWS (c : Char) : Bool :=
  c = ' ' || c = '\t' || c = '\n' || c = '\r'

def jsTrim (l : List Char) : List Char :=
  ((l.dropWhile isWS).reverse.dropWhile isWS).reverse

def jsTrimStr (s : String) : String :=
  String.mk (jsTrim s.data)

/-! ## Line structure

`splitLines` is JS `String.prototype.split('\n')`; `joinLines` re-joins
with `'\n'`.  A `/^.../gm` regex replacement rewrites each line
independently (`.` never matches a line terminator and `$` matches at
end of line), so such a pass is embedded as `mapLines` of a per-line
function. -/

def splitLines : List Char → List (List Char)
  | [] => [[]]
  | c :: rest =>
      if c = '\n' then [] :: splitLines rest
      else (c :: (splitLines rest).headI) :: (splitLines rest).tail

def joinLines : List (List Char) → List Char
  | [] => []
  | [l] => l
  | l :: ls => l ++ ('\n' :: joinLines ls)

def mapLines (f : List Char → List Char) (s : List Char) : List Char :=
  joinLines ((splitLines s).map f)

/-! ## The whole-string scanners

Each models one global (`/g`) regex replacement of
`standardizeResponse`, scanning left to right; on a failed match
attempt the scan advances one character, exactly as a regex engine
does.  The `Nat` fuel argument only drives structural recursion: every
recursive call consumes at least one input character, so fuel
`length + 1` (supplied by the wrappers below) is never exhausted. -/

/-- Longest prefix free of `c`, together with the rest of the input. -/
def spanNe (c : Char) : List Char → List Char × List Char
  | [] => ([], [])
  | x :: xs =>
      if x = c then ([], x :: xs)
      else
        let p := spanNe c xs
        (x :: p.1, p.2)

/-- The `.replace(/\r\n/g, '\n')` pass. -/
def replaceCRLF : List Char → List Char
  | [] => []
  | '\r' :: '\n' :: rest => '\n' :: replaceCRLF rest
  | c :: rest => c :: replaceCRLF rest

/-- The `.replace(/\n{3,}/g, '\n\n')` pass: each maximal run of three
or more newlines becomes exactly two. -/
def collapseNLAux : Nat → List Char → List Char
  | 0, s => s
  | _, [] => []
  | fuel + 1, '\n' :: rest =>
      let run := rest.takeWhile (fun c => c = '\n')
      let rest2 := rest.dropWhile (fun c => c = '\n')
      if 3 ≤ run.length + 1 then '\n' :: '\n' :: collapseNLAux fuel rest2
      else ('\n' :: run) ++ collapseNLAux fuel rest2
  | fuel + 1, c :: rest => c :: collapseNLAux fuel rest

def collapseNL (s : List Char) : List Char :=
  collapseNLAux (s.length + 1) s

def isLowerAZ (c : Char) : Bool :=
  'a' ≤ c && c ≤ 'z'

/-- Locate the earliest occurrence of three consecutive backticks
(the lazy `[\s\S]*?` body followed by the closing fence), returning
the text before it and the text after it. -/
def findClose : List Char → Option (List Char × List Char)
  | '`' :: '`' :: '`' :: rest => some ([], rest)
  | c :: rest => (findClose rest).map (fun p => (c :: p.1, p.2))
  | [] => none

/-- The `.replace(/` followed by three backticks, `[a-z]*\n([\s\S]*?)`,
three backticks, `/g, '「$1」')` pass: a fenced code block becomes its
body wrapped in the bracket markers. -/
def fencesAux : Nat → List Char → List Char
  | 0, s => s
  | _, [] => []
  | fuel + 1, '`' :: '`' :: '`' :: rest =>
      match rest.dropWhile isLowerAZ with
      | '\n' :: body =>
          match findClose body with
          | some (inner, after) => ('「' :: inner) ++ ('」' :: fencesAux fuel after)
          | none => '`' :: fencesAux fuel ('`' :: '`' :: rest)
      | _ => '`' :: fencesAux fuel ('`' :: '`' :: rest)
  | fuel + 1, c :: rest => c :: fencesAux fuel rest

def replaceCodeFences (s : List Char) : List Char :=
  fencesAux (s.length + 1) s

/-- The inline-code pass: a backtick, one or more non-backticks, a
backtick, replaced by the bracket markers around the content. -/
def inlineCodeAux : Nat → List Char → List Char
  | 0, s => s
  | _, [] => []
  | fuel + 1, '`' :: rest =>
      match spanNe '`' rest with
      | (c0 :: content, '`' :: rest2) =>
          ('「' :: c0 :: content) ++ ('」' :: inlineCodeAux fuel rest2)
      | _ => '`' :: inlineCodeAux fuel rest
  | fuel + 1, c :: rest => c :: inlineCodeAux fuel rest

def replaceInlineCode (s : List Char) : List Char :=
  inlineCodeAux (s.length + 1) s

/-- The bold pass: two asterisks, one or more non-asterisks, two
asterisks, replaced by the inner text. -/
def boldStarAux : Nat → List Char → List Char
  | 0, s => s
  | _, [] => []
  | fuel + 1, '*' :: '*' :: rest =>
      match spanNe '*' rest with
      | (c0 :: content, '*' :: '*' :: rest2) =>
          (c0 :: content) ++ boldStarAux fuel rest2
      | _ => '*' :: boldStarAux fuel ('*' :: rest)
  | fuel + 1, c :: rest => c :: boldStarAux fuel rest

def replaceBoldStar (s : List Char) : List Char :=
  boldStarAux (s.length + 1) s

/-- The double-underscore bold pass. -/
def boldUnderAux : Nat → List Char → List Char
  | 0, s => s
  | _, [] => []
  | fuel + 1, '_' :: '_' :: rest =>
      match spanNe '_' rest with
      | (c0 :: content, '_' :: '_' :: rest2) =>
          (c0 :: content) ++ boldUnderAux fuel rest2
      | _ => '_' :: boldUnderAux fuel ('_' :: rest)
  | fuel + 1, c :: rest => c :: boldUnderAux fuel rest

def replaceBoldUnder (s : List Char) : List Char :=
  boldUnderAux (s.length + 1) s

/-- The italic pass: one asterisk, one or more non-asterisks, one
asterisk, replaced by the inner text. -/
def italicStarAux : Nat → List Char → List Char
  | 0, s => s
  | _, [] => []
  | fuel + 1, '*' :: rest =>
      match spanNe '*' rest with
      | (c0 :: content, '*' :: rest2) =>
          (c0 :: content) ++ italicStarAux fuel rest2
      | _ => '*' :: italicStarAux fuel rest
  | fuel + 1, c :: rest => c :: italicStarAux fuel rest

def replaceItalicStar (s : List Char) : List Char :=
  italicStarAux (s.length + 1) s

/-- The single-underscore italic pass. -/
def italicUnderAux : Nat → List Char → List Char
  | 0, s => s
  | _, [] => []
  | fuel + 1, '_' :: rest =>
      match spanNe '_' rest with
      | (c0 :: content, '_' :: rest2) =>
          (c0 :: content) ++ italicUnderAux fuel rest2
      | _ => '_' :: italicUnderAux fuel rest
  | fuel + 1, c :: rest => c :: italicUnderAux fuel rest

def replaceItalicUnder (s : List Char) : List Char :=
  italicUnderAux (s.length + 1) s

/-- The link pass: `[text](url)` with nonempty text and url becomes
`text`. -/
def linksAux : Nat → List Char → List Char
  | 0, s => s
  | _, [] => []
  | fuel + 1, '[' :: rest =>
      match spanNe ']' rest with
      | (t0 :: txt, ']' :: '(' :: rest2) =>
          match spanNe ')' rest2 with
          | (_ :: _, ')' :: rest3) => (t0 :: txt) ++ linksAux fuel rest3
          | _ => '[' :: linksAux fuel rest
      | _ => '[' :: linksAux fuel rest
  | fuel + 1, c :: rest => c :: linksAux fuel rest

def replaceLinks (s : List Char) : List Char :=
  linksAux (s.length + 1) s

/-! ## The line-anchored rules

Each is one `/^.../gm` replacement of `standardizeResponse`, applied
per line via `mapLines`.  A trailing `' ?'` in the pattern consumes at
most one space after the marker. -/

def stripLeadSpace : List Char → List Char
  | [] => []
  | c :: r => if c = ' ' then r else c :: r

/-- `^### ?(.*$)` becomes `🔹 $1`. -/
def hash3Line (l : List Char) : List Char :=
  if l.take 3 = ['#', '#', '#'] then '🔹' :: ' ' :: stripLeadSpace (l.drop 3) else l

/-- `^## ?(.*$)` becomes `🔷 $1`. -/
def hash2Line (l : List Char) : List Char :=
  if l.take 2 = ['#', '#'] then '🔷' :: ' ' :: stripLeadSpace (l.drop 2) else l

/-- `^# ?(.*$)` becomes `💠 $1`. -/
def hash1Line (l : List Char) : List Char :=
  if l.take 1 = ['#'] then '💠' :: ' ' :: stripLeadSpace (l.drop 1) else l

/-- The composition of the three heading passes on one line, in source
order: `###` first, then `##`, then `#`. -/
def headingLine (l : List Char) : List Char :=
  hash1Line (hash2Line (hash3Line l))

/-- `^\* ?(.*$)` becomes `• $1`. -/
def starLine (l : List Char) : List Char :=
  if l.take 1 = ['*'] then '•' :: ' ' :: stripLeadSpace (l.drop 1) else l

/-- `^- ?(.*$)` becomes `• $1`. -/
def dashLine (l : List Char) : List Char :=
  if l.take 1 = ['-'] then '•' :: ' ' :: stripLeadSpace (l.drop 1) else l

/-- `^(\d+)\. ?(.*$)` becomes `📍 $1. $2`. -/
def numLine (l : List Char) : List Char :=
  let ds := l.takeWhile Char.isDigit
  if ds = [] then l
  else
    match l.drop ds.length with
    | '.' :: rest => ('📍' :: ' ' :: ds) ++ ('.' :: ' ' :: stripLeadSpace rest)
    | _ => l

/-- `^> ?(.*$)` becomes `📝 $1`. -/
def quoteLine (l : List Char) : List Char :=
  if l.take 1 = ['>'] then '📝' :: ' ' :: stripLeadSpace (l.drop 1) else l

/-- The closing step: split on newlines, trim every line, drop the
empty ones, and re-join with a blank line between paragraphs. -/
def finalJoin (l : List Char) : List Char :=
  List.intercalate ['\n', '\n'] (((splitLines l).map jsTrim).filter (fun x => !x.isEmpty))

/-! ## standardizeResponse -/

/-- The normalizer pipeline on character lists, pass for pass in
source order. -/
def stdChars (text : List Char) : List Char :=
  let f1 := jsTrim text
  let f2 := replaceCRLF f1
  let f3 := collapseNL f2
  let f4 := replaceCodeFences f3
  let f5 := mapLines hash3Line f4
  let f6 := mapLines hash2Line f5
  let f7 := mapLines hash1Line f6
  let f8 := mapLines starLine f7
  let f9 := mapLines dashLine f8
  let f10 := mapLines numLine f9
  let f11 := mapLines quoteLine f10
  let f12 := replaceInlineCode f11
  let f13 := replaceBoldStar f12
  let f14 := replaceBoldUnder f13
  let f15 := replaceItalicStar f14
  let f16 := replaceItalicUnder f15
  let f17 := replaceLinks f16
  finalJoin f17

/-- `standardizeResponse`: `if (!text) return ''` and then the
pipeline. -/
def standardizeResponse (text : String) : String :=
  if text = "" then "" else String.mk (stdChars text.data)

/-! ## History operations

These embed the `setQueryHistory` updater closures of the component.
The in-memory history list is newest first. -/

/-- The success-path updater inside `handleSearch`'s `updateResponse`:
`prev.map(q => q.timestamp === newQuery.timestamp ? { ...q, responses:
{ ...q.responses, [llm]: standardizeResponse(result) } } : q)`. -/
def updateResponse (llm : Provider) (ts : Nat) (result : String)
    (hist : List QueryResponse) : List QueryResponse :=
  hist.map fun q =>
    if q.timestamp = ts then
      { q with responses := setSlot llm (standardizeResponse result) q.responses }
    else q

/-- `handleDeleteQuery`: `prev.filter(item => item.timestamp !== timestamp)`. -/
def handleDeleteQuery (ts : Nat) (hist : List QueryResponse) : List QueryResponse :=
  hist.filter fun item => item.timestamp != ts

/-- The parent lookup in `handleSearch`: `selectedQuery ?
queryHistory.find(q => q.timestamp === selectedQuery) : undefined`. -/
def findParent (sel : Option Nat) (hist : List QueryResponse) : Option QueryResponse :=
  match sel with
  | none => none
  | some ts => hist.find? fun q => q.timestamp == ts

/-- The synchronous part of `handleSearch`: bail out on a blank query
(`if (!query.trim()) return`), otherwise build `newQuery` with all
three slots set to the `'Loading...'` sentinel and prepend it
(`setQueryHistory(prev => [newQuery, ...prev])`). -/
def handleSearch (query' : String) (now : Nat) (sel : Option Nat)
    (hist : List QueryResponse) : List QueryResponse :=
  if jsTrimStr query' = "" then hist
  else
    { query := jsTrimStr query'
      timestamp := now
      parentId := (findParent sel hist).map (fun p => p.timestamp)
      responses :=
        { perplexity := "Loading...", chatgpt := "Loading...", gemini := "Loading..." } } :: hist

/-! ## Prompt construction -/

/-- `createPromptWithContext(prompt, parentQuery)`. -/
def createPromptWithContext (prompt : String) (parent : Option QueryResponse) : String :=
  match parent with
  | none => prompt
  | some p =>
      "Previous question: " ++ p.query ++
      "\nPrevious answers:\nChatGPT: " ++ p.responses.chatgpt ++
      "\nGemini: " ++ p.responses.gemini ++
      "\nPerplexity: " ++ p.responses.perplexity ++
      "\n\nFollow-up question: " ++ prompt

/-- The `contextualPrompt` assembled in `handleSearch`: the user/query
type header, then either the follow-up context or the bare query. -/
def contextualPrompt (userType queryType : Option String) (query' : String)
    (parent : Option QueryResponse) : String :=
  "User Type: " ++ userType.getD "Not specified" ++
  "\nQuery Type: " ++ queryType.getD "Not specified" ++ "\n\n" ++
  (match parent with
   | some p => createPromptWithContext query' (some p)
   | none => query')

/-! ## Provider adapters

The HTTP world is abstracted into a `CallOutcome`: the fetch either
resolves with an ok response whose JSON extraction succeeds
(`httpOk (.ok content)`) or throws while reading the expected shape
(`httpOk (.error msg)`, the TypeError of a shape mismatch), resolves
with a non-2xx status (`httpErr`), or rejects (`reject`, covering
network failure and, for the OpenAI adapter, the 30 s
`timeoutPromise` rejection `'Request timed out'`).  Each adapter's
body is an `Except`, and its try/catch converts every thrown error
into the synthesized `Error (<provider>): <message>` string, so the
adapter itself is a total function into `String`. -/

inductive CallOutcome where
  | httpOk (shape : Except String String)
  | httpErr (status : Nat) (body : String)
  | reject (msg : String)
  deriving Repr

/-- Body of `callOpenAI`.  Note: the code interpolates the API key
into the Authorization header but never checks it, so a missing key
does not throw locally; it can only surface via the outcome. -/
def openAIAttempt (o : CallOutcome) : Except String String :=
  match o with
  | .reject m => .error m
  | .httpErr status body =>
      .error ("HTTP error! status: " ++ toString status ++ ", message: " ++ body)
  | .httpOk (.error m) => .error m
  | .httpOk (.ok c) => .ok c

def callOpenAI (_apiKey : Option String) (_prompt : String) (o : CallOutcome) : String :=
  match openAIAttempt o with
  | .ok s => s
  | .error m => "Error (OpenAI): " ++ m

/-- Body of `callGemini`: throws `'Gemini API key not found'` when the
key is absent, `'HTTP error! status: <status>'` (without the body) on
a non-2xx response. -/
def geminiAttempt (apiKey : Option String) (o : CallOutcome) : Except String String :=
  match apiKey with
  | none => .error "Gemini API key not found"
  | some _ =>
      match o with
      | .reject m => .error m
      | .httpErr status _ => .error ("HTTP error! status: " ++ toString status)
      | .httpOk (.error m) => .error m
      | .httpOk (.ok c) => .ok c

def callGemini (apiKey : Option String) (_prompt : String) (o : CallOutcome) : String :=
  match geminiAttempt apiKey o with
  | .ok s => s
  | .error m => "Error (Gemini): " ++ m

/-- Body of `callPerplexity`: throws `'Perplexity API key not found'`
when the key is absent, and includes the error body in the non-2xx
message. -/
def perplexityAttempt (apiKey : Option String) (o : CallOutcome) : Except String String :=
  match apiKey with
  | none => .error "Perplexity API key not found"
  | some _ =>
      match o with
      | .reject m => .error m
      | .httpErr status body =>
          .error ("HTTP error! status: " ++ toString status ++ ", message: " ++ body)
      | .httpOk (.error m) => .error m
      | .httpOk (.ok c) => .ok c

def callPerplexity (apiKey : Option String) (_prompt : String) (o : CallOutcome) : String :=
  match perplexityAttempt apiKey o with
  | .ok s => s
  | .error m => "Error (Perplexity): " ++ m

/-! ## File upload -/

/-- The component state touched by `handleFileUpload`. -/
structure UploadState where
  fileName : String
  fileContent : String
  query : String
  error : Option String
  deriving DecidableEq, Repr

/-- The oversize rejection message thrown inside `handleFileUpload`. -/
def oversizeMsg : String :=
  "File content is too large. Please upload a smaller file."

/-- `handleFileUpload` for a selected file: set the file name, clear
the error, then either (content read and within the 50 000-character
bound) store the content and populate the query, or (read failure or
oversize) reset the file name and content and surface the message. -/
def handleFileUpload (name : String) (readResult : Except String String)
    (s : UploadState) : UploadState :=
  let s1 := { s with fileName := name, error := none }
  match readResult with
  | .error msg => { s1 with fileName := "", fileContent := "", error := some msg }
  | .ok content =>
      if 50000 < content.length then
        { s1 with fileName := "", fileContent := "", error := some oversizeMsg }
      else
        { s1 with fileContent := content, query := content }

/-! ## Text size (zoom) -/

def defaultTextSize : Int := 16

/-- `handleZoomIn`: `Math.min(prevSize + 2, 32)`. -/
def handleZoomIn (s : Int) : Int := min (s + 2) 32

/-- `handleZoomOut`: `Math.max(prevSize - 2, 12)`. -/
def handleZoomOut (s : Int) : Int := max (s - 2) 12

inductive ZoomOp where
  | zoomIn
  | zoomOut
  deriving DecidableEq, Repr

def applyZoom : ZoomOp → Int → Int
  | .zoomIn, s => handleZoomIn s
  | .zoomOut, s => handleZoomOut s

def applyZoomSeq (ops : List ZoomOp) (s : Int) : Int :=
  ops.foldl (fun acc op => applyZoom op acc) s

/-! ## Sample data used by witnesses -/

def sampleRecord : QueryResponse :=
  { query := "q", timestamp := 1, parentId := none,
    responses := { perplexity := "p", chatgpt := "c", gemini := "g" } }

def sampleRecord2 : QueryResponse :=
  { query := "q2", timestamp := 2, parentId := none,
    responses := { perplexity := "p2", chatgpt := "c2", gemini := "g2" } }

def upload0 : UploadState :=
  { fileName := "old", fileContent := "oldc", query := "q0", error := none }

def bigContent : String :=
  String.mk (List.replicate 50001 'a')

/-- The glyph markers that the heading, list and note substitutions
prepend to a line. -/
def glyphChars : List Char :=
  ['💠', '🔷', '🔹', '•', '📍', '📝']

/-- Substring containment on character lists. -/
def containsSeg (big small : List Char) : Prop :=
  ∃ a b, big = a ++ small ++ b

/-! ## Helper lemmas -/

lemma getSlot_setSlot_self (llm : Provider) (v : String) (r : Responses) :
    getSlot llm (setSlot llm v r) = v := by
  cases llm <;> rfl

lemma getSlot_setSlot_ne {l llm : Provider} (h : l ≠ llm) (v : String) (r : Responses) :
    getSlot l (setSlot llm v r) = getSlot l r := by
  cases l <;> cases llm <;> first | rfl | exact absurd rfl h

lemma zoom_step_invariant (op : ZoomOp) (s : Int) (h1 : 12 ≤ s) (h2 : s ≤ 32) :
    12 ≤ applyZoom op s ∧ applyZoom op s ≤ 32 := by
  cases op
  · exact ⟨le_min (by omega) (by norm_num), min_le_right _ _⟩
  · exact ⟨le_max_right _ _, max_le (by omega) (by norm_num)⟩

lemma applyZoomSeq_invariant (ops : List ZoomOp) :
    ∀ s : Int, 12 ≤ s → s ≤ 32 →
      12 ≤ applyZoomSeq ops s ∧ applyZoomSeq ops s ≤ 32 := by
  induction ops with
  | nil => intro s h1 h2; exact ⟨h1, h2⟩
  | cons op ops ih =>
      intro s h1 h2
      have h := zoom_step_invariant op s h1 h2
      simpa [applyZoomSeq, List.foldl_cons] using ih (applyZoom op s) h.1 h.2

lemma containsSeg_decomp (x mid y : String) :
    containsSeg (x ++ mid ++ y).data mid.data :=
  ⟨x.data, y.data, by simp⟩

/-! ## Line-structure lemmas

These justify treating the chained `/^.../gm` passes per line: the
line decomposition is a bijection between strings and non-empty lists
of newline-free lines, so consecutive `mapLines` passes compose. -/

lemma splitLines_ne_nil (s : List Char) : splitLines s ≠ [] := by
  cases s with
  | nil => simp [splitLines]
  | cons c rest =>
      simp only [splitLines]
      split <;> simp

lemma nl_not_mem_splitLines (s : List Char) : ∀ l ∈ splitLines s, '\n' ∉ l := by
  induction s with
  | nil =>
      intro l hl
      simp [splitLines] at hl
      simp [hl]
  | cons c rest ih =>
      intro l hl
      simp only [splitLines] at hl
      rcases hrest : splitLines rest with _ | ⟨a, as⟩
      · exact absurd hrest (splitLines_ne_nil rest)
      · rw [hrest] at hl
        by_cases hc : c = '\n'
        · rw [if_pos hc] at hl
          rcases List.mem_cons.1 hl with h | h
          · simp [h]
          · exact ih l (by rw [hrest]; exact h)
        · rw [if_neg hc] at hl
          simp only [List.headI_cons, List.tail_cons] at hl
          rcases List.mem_cons.1 hl with h | h
          · subst h
            intro hm
            rcases List.mem_cons.1 hm with h2 | h2
            · exact hc h2.symm
            · exact ih a (by rw [hrest]; exact List.mem_cons_self _ _) h2
          · exact ih l (by rw [hrest]; exact List.mem_cons_of_mem _ h)

lemma splitLines_no_nl {l : List Char} (h : '\n' ∉ l) : splitLines l = [l] := by
  induction l with
  | nil => rfl
  | cons c rest ih =>
      have hc : c ≠ '\n' := fun e => h (by rw [e]; exact List.mem_cons_self _ _)
      have hr : '\n' ∉ rest := fun hm => h (List.mem_cons_of_mem _ hm)
      simp only [splitLines, if_neg hc, ih hr, List.headI_cons, List.tail_cons]

lemma splitLines_append_nl {l : List Char} (h : '\n' ∉ l) (t : List Char) :
    splitLines (l ++ '\n' :: t) = l :: splitLines t := by
  induction l with
  | nil => simp [splitLines]
  | cons c rest ih =>
      have hc : c ≠ '\n' := fun e => h (by rw [e]; exact List.mem_cons_self _ _)
      have hr : '\n' ∉ rest := fun hm => h (List.mem_cons_of_mem _ hm)
      show splitLines (c :: (rest ++ '\n' :: t)) = _
      simp only [splitLines, if_neg hc]
      rw [ih hr]
      simp

lemma splitLines_joinLines (ls : List (List Char)) (hne : ls ≠ [])
    (h : ∀ l ∈ ls, '\n' ∉ l) : splitLines (joinLines ls) = ls := by
  induction ls with
  | nil => exact absurd rfl hne
  | cons l rest ih =>
      cases rest with
      | nil =>
          rw [show joinLines [l] = l from rfl]
          exact splitLines_no_nl (h l (by simp))
      | cons l2 rest2 =>
          rw [show joinLines (l :: l2 :: rest2) = l ++ '\n' :: joinLines (l2 :: rest2)
            from rfl]
          rw [splitLines_append_nl (h l (by simp))]
          rw [ih (by simp) (fun x hx => h x (List.mem_cons_of_mem _ hx))]

lemma mapLines_comp (f g : List Char → List Char)
    (hg : ∀ l, '\n' ∉ l → '\n' ∉ g l) (s : List Char) :
    mapLines f (mapLines g s) = mapLines (fun l => f (g l)) s := by
  unfold mapLines
  rw [splitLines_joinLines ((splitLines s).map g)
    (fun hmap => splitLines_ne_nil s (List.map_eq_nil_iff.1 hmap))
    (by
      intro l hl
      rcases List.mem_map.1 hl with ⟨x, hx, rfl⟩
      exact hg x (nl_not_mem_splitLines s x hx))]
  rw [List.map_map]
  rfl

lemma nl_not_mem_stripLeadSpace {l : List Char} (h : '\n' ∉ l) :
    '\n' ∉ stripLeadSpace l := by
  cases l with
  | nil => simp [stripLeadSpace]
  | cons c r =>
      have hr : '\n' ∉ r := fun hm => h (List.mem_cons_of_mem _ hm)
      simp only [stripLeadSpace]
      split
      · exact hr
      · exact h

lemma nl_not_mem_glyph_line (g : Char) (hg : g ≠ '\n') {x : List Char}
    (hx : '\n' ∉ x) : '\n' ∉ g :: ' ' :: stripLeadSpace x := by
  intro hm
  rcases List.mem_cons.1 hm with h | h
  · exact hg h.symm
  · rcases List.mem_cons.1 h with h2 | h2
    · exact absurd h2.symm (by decide)
    · exact nl_not_mem_stripLeadSpace hx h2

lemma nl_not_mem_hash3Line {l : List Char} (h : '\n' ∉ l) : '\n' ∉ hash3Line l := by
  unfold hash3Line
  split
  · exact nl_not_mem_glyph_line _ (by decide) fun hm => h (List.drop_subset _ _ hm)
  · exact h

lemma nl_not_mem_hash2Line {l : List Char} (h : '\n' ∉ l) : '\n' ∉ hash2Line l := by
  unfold hash2Line
  split
  · exact nl_not_mem_glyph_line _ (by decide) fun hm => h (List.drop_subset _ _ hm)
  · exact h

/-- A line whose first character is none of the markdown markers is
left unchanged by every line-anchored substitution rule. -/
lemma lineRules_fix (c : Char) (l : List Char) (h1 : c ≠ '#') (h2 : c ≠ '*')
    (h3 : c ≠ '-') (h4 : c.isDigit = false) (h5 : c ≠ '>') :
    hash3Line (c :: l) = c :: l ∧ hash2Line (c :: l) = c :: l ∧
    hash1Line (c :: l) = c :: l ∧ starLine (c :: l) = c :: l ∧
    dashLine (c :: l) = c :: l ∧ numLine (c :: l) = c :: l ∧
    quoteLine (c :: l) = c :: l := by
  refine ⟨?_, ?_, ?_, ?_, ?_, ?_, ?_⟩
  · unfold hash3Line
    rw [show (c :: l).take 3 = c :: l.take 2 from rfl]
    rw [if_neg (by intro heq; injection heq with hh _; exact h1 hh)]
  · unfold hash2Line
    rw [show (c :: l).take 2 = c :: l.take 1 from rfl]
    rw [if_neg (by intro heq; injection heq with hh _; exact h1 hh)]
  · unfold hash1Line
    rw [show (c :: l).take 1 = [c] from rfl]
    rw [if_neg (by intro heq; injection heq with hh _; exact h1 hh)]
  · unfold starLine
    rw [show (c :: l).take 1 = [c] from rfl]
    rw [if_neg (by intro heq; injection heq with hh _; exact h2 hh)]
  · unfold dashLine
    rw [show (c :: l).take 1 = [c] from rfl]
    rw [if_neg (by intro heq; injection heq with hh _; exact h3 hh)]
  · simp [numLine, List.takeWhile_cons, h4]
  · unfold quoteLine
    rw [show (c :: l).take 1 = [c] from rfl]
    rw [if_neg (by intro heq; injection heq with hh _; exact h5 hh)]

/-! ## Claim theorems -/

/-- C1: resolving one provider's call updates only that provider's
slot in the record(s) whose timestamp matches the query's creation
timestamp — with the normalizer applied to the raw text — while the
record's query text, timestamp, parentId and the other two slots are
untouched, every non-matching record is untouched, and the list keeps
its length and order. -/
theorem updateResponse_frame (llm : Provider) (ts : Nat) (result : String)
    (hist : List QueryResponse) :
    (updateResponse llm ts result hist).length = hist.length ∧
    ∀ i : Nat, ∀ q : QueryResponse, hist[i]? = some q →
      ∃ q', (updateResponse llm ts result hist)[i]? = some q' ∧
        q'.query = q.query ∧ q'.timestamp = q.timestamp ∧ q'.parentId = q.parentId ∧
        (∀ l : Provider, l ≠ llm → getSlot l q'.responses = getSlot l q.responses) ∧
        (q.timestamp = ts → getSlot llm q'.responses = standardizeResponse result) ∧
        (q.timestamp ≠ ts → q' = q) := by
  constructor
  · simp [updateResponse]
  · intro i q hq
    by_cases h : q.timestamp = ts
    · refine ⟨{ q with responses := setSlot llm (standardizeResponse result) q.responses },
        ?_, rfl, rfl, rfl, ?_, ?_, ?_⟩
      · simp [updateResponse, hq, h]
      · intro l hl
        exact getSlot_setSlot_ne hl _ _
      · intro _
        exact getSlot_setSlot_self ..
      · intro hne
        exact absurd h hne
    · refine ⟨q, ?_, rfl, rfl, rfl, ?_, ?_, ?_⟩
      · simp [updateResponse, hq, h]
      · intro l _
        rfl
      · intro hts
        exact absurd hts h
      · intro _
        rfl

/-- Witness for C1 at a concrete one-record history. -/
theorem updateResponse_frame_witness :
    ∃ q', (updateResponse Provider.chatgpt 1 "x" [sampleRecord])[0]? = some q' ∧
      q'.query = sampleRecord.query ∧ q'.timestamp = sampleRecord.timestamp ∧
      q'.parentId = sampleRecord.parentId ∧
      (∀ l : Provider, l ≠ Provider.chatgpt →
        getSlot l q'.responses = getSlot l sampleRecord.responses) ∧
      (sampleRecord.timestamp = 1 →
        getSlot Provider.chatgpt q'.responses = standardizeResponse "x") ∧
      (sampleRecord.timestamp ≠ 1 → q' = sampleRecord) :=
  (updateResponse_frame Provider.chatgpt 1 "x" [sampleRecord]).2 0 sampleRecord rfl

/-- C2: each adapter converts every failing call — a missing API key
where the adapter checks one (Gemini, Perplexity), a non-2xx status, a
rejected request (network failure or, for OpenAI, the timeout race),
or a response of unexpected JSON shape — into the returned string
`Error (<provider>): <message>`; a cleanly successful call returns the
extracted content.  The adapters are total `String`-valued functions:
no exception crosses the adapter boundary.  (`callOpenAI` never
inspects its key locally; a missing OpenAI key can only surface as a
failing HTTP outcome, which this theorem covers.) -/
theorem adapters_error_policy (k kg kp : Option String) (prompt : String) (o : CallOutcome) :
    ((¬ ∃ c, o = CallOutcome.httpOk (Except.ok c)) →
        ∃ m, callOpenAI k prompt o = "Error (OpenAI): " ++ m) ∧
    ((kg = none ∨ ¬ ∃ c, o = CallOutcome.httpOk (Except.ok c)) →
        ∃ m, callGemini kg prompt o = "Error (Gemini): " ++ m) ∧
    ((kp = none ∨ ¬ ∃ c, o = CallOutcome.httpOk (Except.ok c)) →
        ∃ m, callPerplexity kp prompt o = "Error (Perplexity): " ++ m) ∧
    (∀ c, o = CallOutcome.httpOk (Except.ok c) →
        callOpenAI k prompt o = c ∧
        (kg ≠ none → callGemini kg prompt o = c) ∧
        (kp ≠ none → callPerplexity kp prompt o = c)) := by
  refine ⟨?_, ?_, ?_, ?_⟩
  · intro h
    match o with
    | .reject m => exact ⟨m, rfl⟩
    | .httpErr st b => exact ⟨_, rfl⟩
    | .httpOk (.error m) => exact ⟨m, rfl⟩
    | .httpOk (.ok c) => exact absurd ⟨c, rfl⟩ h
  · intro h
    match kg with
    | none => exact ⟨_, rfl⟩
    | some key =>
        rcases h with h | h
        · exact absurd h (by simp)
        · match o with
          | .reject m => exact ⟨m, rfl⟩
          | .httpErr st b => exact ⟨_, rfl⟩
          | .httpOk (.error m) => exact ⟨m, rfl⟩
          | .httpOk (.ok c) => exact absurd ⟨c, rfl⟩ h
  · intro h
    match kp with
    | none => exact ⟨_, rfl⟩
    | some key =>
        rcases h with h | h
        · exact absurd h (by simp)
        · match o with
          | .reject m => exact ⟨m, rfl⟩
          | .httpErr st b => exact ⟨_, rfl⟩
          | .httpOk (.error m) => exact ⟨m, rfl⟩
          | .httpOk (.ok c) => exact absurd ⟨c, rfl⟩ h
  · rintro c rfl
    refine ⟨rfl, ?_, ?_⟩
    · intro h
      match kg with
      | none => exact absurd rfl h
      | some key => rfl
    · intro h
      match kp with
      | none => exact absurd rfl h
      | some key => rfl

/-- Witness for C2: a rejected request with no keys configured. -/
theorem adapters_error_policy_witness :
    (∃ m, callOpenAI none "p" (CallOutcome.reject "boom") = "Error (OpenAI): " ++ m) ∧
    (∃ m, callGemini none "p" (CallOutcome.reject "boom") = "Error (Gemini): " ++ m) ∧
    (∃ m, callPerplexity none "p" (CallOutcome.reject "boom") = "Error (Perplexity): " ++ m) := by
  have h := adapters_error_policy none none none "p" (CallOutcome.reject "boom")
  exact ⟨h.1 (by rintro ⟨c, hc⟩; cases hc),
    h.2.1 (Or.inl rfl), h.2.2.1 (Or.inl rfl)⟩

/-- C4: the prompt built for a follow-up query ends with the new
question, and everything before it contains the parent's query text
and all three of the parent's response texts. -/
theorem followup_prompt_contains_context (ut qt : Option String) (newQ : String)
    (p : QueryResponse) :
    ∃ pre : String, contextualPrompt ut qt newQ (some p) = pre ++ newQ ∧
      containsSeg pre.data p.query.data ∧
      containsSeg pre.data p.responses.chatgpt.data ∧
      containsSeg pre.data p.responses.gemini.data ∧
      containsSeg pre.data p.responses.perplexity.data := by
  refine ⟨"User Type: " ++ ut.getD "Not specified" ++ "\nQuery Type: " ++
      qt.getD "Not specified" ++ "\n\n" ++ "Previous question: " ++ p.query ++
      "\nPrevious answers:\nChatGPT: " ++ p.responses.chatgpt ++
      "\nGemini: " ++ p.responses.gemini ++
      "\nPerplexity: " ++ p.responses.perplexity ++
      "\n\nFollow-up question: ", ?_, ?_, ?_, ?_, ?_⟩
  · apply String.ext
    simp [contextualPrompt, createPromptWithContext]
  · exact ⟨("User Type: " ++ ut.getD "Not specified" ++ "\nQuery Type: " ++
      qt.getD "Not specified" ++ "\n\n" ++ "Previous question: ").data,
      ("\nPrevious answers:\nChatGPT: " ++ p.responses.chatgpt ++
      "\nGemini: " ++ p.responses.gemini ++
      "\nPerplexity: " ++ p.responses.perplexity ++
      "\n\nFollow-up question: ").data, by simp⟩
  · exact ⟨("User Type: " ++ ut.getD "Not specified" ++ "\nQuery Type: " ++
      qt.getD "Not specified" ++ "\n\n" ++ "Previous question: " ++ p.query ++
      "\nPrevious answers:\nChatGPT: ").data,
      ("\nGemini: " ++ p.responses.gemini ++
      "\nPerplexity: " ++ p.responses.perplexity ++
      "\n\nFollow-up question: ").data, by simp⟩
  · exact ⟨("User Type: " ++ ut.getD "Not specified" ++ "\nQuery Type: " ++
      qt.getD "Not specified" ++ "\n\n" ++ "Previous question: " ++ p.query ++
      "\nPrevious answers:\nChatGPT: " ++ p.responses.chatgpt ++
      "\nGemini: ").data,
      ("\nPerplexity: " ++ p.responses.perplexity ++
      "\n\nFollow-up question: ").data, by simp⟩
  · exact ⟨("User Type: " ++ ut.getD "Not specified" ++ "\nQuery Type: " ++
      qt.getD "Not specified" ++ "\n\n" ++ "Previous question: " ++ p.query ++
      "\nPrevious answers:\nChatGPT: " ++ p.responses.chatgpt ++
      "\nGemini: " ++ p.responses.gemini ++
      "\nPerplexity: ").data,
      ("\n\nFollow-up question: ").data, by simp⟩

/-- C7: deletion filters the record(s) with the given timestamp out of
the history synchronously and keeps the rest in order, and a late
provider update for a timestamp no longer present leaves the history
unchanged — it never reinserts the record. -/
theorem delete_then_late_update (llm : Provider) (ts : Nat) (text : String)
    (hist : List QueryResponse) :
    (∀ q ∈ handleDeleteQuery ts hist, q.timestamp ≠ ts) ∧
    (handleDeleteQuery ts hist).Sublist hist ∧
    (∀ q ∈ hist, q.timestamp ≠ ts → q ∈ handleDeleteQuery ts hist) ∧
    ((∀ q ∈ hist, q.timestamp ≠ ts) → updateResponse llm ts text hist = hist) := by
  refine ⟨?_, List.filter_sublist _, ?_, ?_⟩
  · intro q hq
    have h := List.of_mem_filter hq
    simpa using h
  · intro q hq hne
    exact List.mem_filter.2 ⟨hq, by simpa using hne⟩
  · intro h
    calc hist.map (fun q =>
          if q.timestamp = ts then
            { q with responses := setSlot llm (standardizeResponse text) q.responses }
          else q)
        = hist.map id := List.map_congr_left (fun q hq => if_neg (h q hq))
      _ = hist := List.map_id hist

/-- Witness for C7: a late update against a history that no longer
holds the deleted timestamp is the identity. -/
theorem delete_then_late_update_witness :
    updateResponse Provider.chatgpt 1 "x" [sampleRecord2] = [sampleRecord2] :=
  (delete_then_late_update Provider.chatgpt 1 "x" [sampleRecord2]).2.2.2 (by decide)

/-- C8: an uploaded file whose extracted content exceeds 50 000
characters is rejected: the error state carries the descriptive
message, the query field keeps its previous value (the oversized
content is never stored into it), and the file name and content state
are reset. -/
theorem handleFileUpload_oversize_rejected (name : String) (content : String)
    (s : UploadState) (h : 50000 < content.length) :
    handleFileUpload name (Except.ok content) s =
      { s with fileName := "", fileContent := "", error := some oversizeMsg } ∧
    (handleFileUpload name (Except.ok content) s).query = s.query := by
  constructor
  · simp [handleFileUpload, h]
  · simp [handleFileUpload, h]

/-- Witness for C8 with a 50 001-character file. -/
theorem handleFileUpload_oversize_rejected_witness :
    handleFileUpload "big.txt" (Except.ok bigContent) upload0 =
      { upload0 with fileName := "", fileContent := "", error := some oversizeMsg } ∧
    (handleFileUpload "big.txt" (Except.ok bigContent) upload0).query = upload0.query :=
  handleFileUpload_oversize_rejected "big.txt" bigContent upload0
    (by
      have h : bigContent.length = 50001 := by
        rw [bigContent]
        rw [show (String.mk (List.replicate 50001 'a')).length
            = (List.replicate 50001 'a').length from rfl]
        rw [List.length_replicate]
      rw [h]
      norm_num)

/-- C9: submitting a non-blank query synchronously prepends a fresh
record whose three slots all hold the `'Loading...'` sentinel; all
previous records follow unchanged in their prior order. -/
theorem handleSearch_prepends_loading (query' : String) (now : Nat) (sel : Option Nat)
    (hist : List QueryResponse) (h : jsTrimStr query' ≠ "") :
    ∃ r : QueryResponse, handleSearch query' now sel hist = r :: hist ∧
      r.responses.chatgpt = "Loading..." ∧ r.responses.gemini = "Loading..." ∧
      r.responses.perplexity = "Loading..." ∧ r.query = jsTrimStr query' ∧
      r.timestamp = now := by
  unfold handleSearch
  rw [if_neg h]
  exact ⟨_, rfl, rfl, rfl, rfl, rfl, rfl⟩

/-- Witness for C9. -/
theorem handleSearch_prepends_loading_witness :
    ∃ r : QueryResponse, handleSearch "hi" 5 none [] = r :: [] ∧
      r.responses.chatgpt = "Loading..." ∧ r.responses.gemini = "Loading..." ∧
      r.responses.perplexity = "Loading..." ∧ r.query = jsTrimStr "hi" ∧
      r.timestamp = 5 :=
  handleSearch_prepends_loading "hi" 5 none [] (by decide)

/-- C10: starting from the default size 16, any sequence of zoom
operations keeps the text size within [12, 32]: zoom-in adds 2 clamped
at 32, zoom-out subtracts 2 clamped at 12. -/
theorem textSize_invariant (ops : List ZoomOp) :
    12 ≤ applyZoomSeq ops defaultTextSize ∧ applyZoomSeq ops defaultTextSize ≤ 32 :=
  applyZoomSeq_invariant ops defaultTextSize (by norm_num [defaultTextSize])
    (by norm_num [defaultTextSize])

/-- C3: the heading stage of the pipeline acts line by line as
`headingLine`; a line starting with `###` always becomes the
small-heading line `🔹 …` and never a `💠`- or `🔷`-headed line; a
line starting with `##` but not `###` becomes `🔷 …`; a line starting
with `#` but not `##` becomes `💠 …`; the three glyphs are pairwise
distinct; and the example: normalizing the canned text
`"# Title\n\nSome text"` yields exactly `"💠 Title\n\nSome text"`. -/
theorem heading_longest_prefix_first :
    (∀ s : List Char,
      mapLines hash1Line (mapLines hash2Line (mapLines hash3Line s)) =
        mapLines headingLine s) ∧
    (∀ l : List Char, l.take 3 = ['#', '#', '#'] →
      headingLine l = '🔹' :: ' ' :: stripLeadSpace (l.drop 3) ∧
      (headingLine l).take 1 ≠ ['💠'] ∧ (headingLine l).take 1 ≠ ['🔷']) ∧
    (∀ l : List Char, l.take 2 = ['#', '#'] → l.take 3 ≠ ['#', '#', '#'] →
      headingLine l = '🔷' :: ' ' :: stripLeadSpace (l.drop 2)) ∧
    (∀ l : List Char, l.take 1 = ['#'] → l.take 2 ≠ ['#', '#'] →
      headingLine l = '💠' :: ' ' :: stripLeadSpace (l.drop 1)) ∧
    ('🔹' ≠ '🔷' ∧ '🔹' ≠ '💠' ∧ '🔷' ≠ '💠') ∧
    standardizeResponse "# Title\n\nSome text" = "💠 Title\n\nSome text" := by
  refine ⟨?_, ?_, ?_, ?_, by decide, by decide⟩
  · intro s
    rw [mapLines_comp hash2Line hash3Line (fun l h => nl_not_mem_hash3Line h) s]
    rw [mapLines_comp hash1Line (fun l => hash2Line (hash3Line l))
      (fun l h => nl_not_mem_hash2Line (nl_not_mem_hash3Line h)) s]
    rfl
  · intro l h3
    have e3 : hash3Line l = '🔹' :: ' ' :: stripLeadSpace (l.drop 3) := by
      unfold hash3Line
      rw [if_pos h3]
    have e2 : hash2Line ('🔹' :: ' ' :: stripLeadSpace (l.drop 3)) =
        '🔹' :: ' ' :: stripLeadSpace (l.drop 3) := by
      unfold hash2Line
      rw [show ('🔹' :: ' ' :: stripLeadSpace (l.drop 3)).take 2 = ['🔹', ' '] from rfl]
      rw [if_neg (by decide)]
    have e1 : hash1Line ('🔹' :: ' ' :: stripLeadSpace (l.drop 3)) =
        '🔹' :: ' ' :: stripLeadSpace (l.drop 3) := by
      unfold hash1Line
      rw [show ('🔹' :: ' ' :: stripLeadSpace (l.drop 3)).take 1 = ['🔹'] from rfl]
      rw [if_neg (by decide)]
    have hl : headingLine l = '🔹' :: ' ' :: stripLeadSpace (l.drop 3) := by
      unfold headingLine
      rw [e3, e2, e1]
    refine ⟨hl, ?_, ?_⟩
    · rw [hl, show ('🔹' :: ' ' :: stripLeadSpace (l.drop 3)).take 1 = ['🔹'] from rfl]
      decide
    · rw [hl, show ('🔹' :: ' ' :: stripLeadSpace (l.drop 3)).take 1 = ['🔹'] from rfl]
      decide
  · intro l h2 hn3
    have e3 : hash3Line l = l := by
      unfold hash3Line
      rw [if_neg hn3]
    have e2 : hash2Line l = '🔷' :: ' ' :: stripLeadSpace (l.drop 2) := by
      unfold hash2Line
      rw [if_pos h2]
    have e1 : hash1Line ('🔷' :: ' ' :: stripLeadSpace (l.drop 2)) =
        '🔷' :: ' ' :: stripLeadSpace (l.drop 2) := by
      unfold hash1Line
      rw [show ('🔷' :: ' ' :: stripLeadSpace (l.drop 2)).take 1 = ['🔷'] from rfl]
      rw [if_neg (by decide)]
    unfold headingLine
    rw [e3, e2, e1]
  · intro l h1 hn2
    have hn3 : l.take 3 ≠ ['#', '#', '#'] := by
      intro h
      apply hn2
      have ht : (l.take 3).take 2 = l.take 2 := by
        rw [List.take_take]
        norm_num
      rw [← ht, h]
      decide
    have e3 : hash3Line l = l := by
      unfold hash3Line
      rw [if_neg hn3]
    have e2 : hash2Line l = l := by
      unfold hash2Line
      rw [if_neg hn2]
    have e1 : hash1Line l = '💠' :: ' ' :: stripLeadSpace (l.drop 1) := by
      unfold hash1Line
      rw [if_pos h1]
    unfold headingLine
    rw [e3, e2, e1]

/-- Witness for C3 on the line `### x`. -/
theorem heading_longest_prefix_first_witness :
    headingLine ['#', '#', '#', ' ', 'x'] =
      '🔹' :: ' ' :: stripLeadSpace (['#', '#', '#', ' ', 'x'].drop 3) ∧
    (headingLine ['#', '#', '#', ' ', 'x']).take 1 ≠ ['💠'] ∧
    (headingLine ['#', '#', '#', ' ', 'x']).take 1 ≠ ['🔷'] :=
  heading_longest_prefix_first.2.1 ['#', '#', '#', ' ', 'x'] (by decide)

/-- C5 counterexample: reapplying the normalizer to its own output can
introduce a duplicate glyph.  The input line ` - • x` keeps its
leading space through every line rule of the first pass (the `^-` rule
does not fire) and only loses it in the final per-line trim, so the
first pass outputs the line `- • x`, which already carries a bullet
glyph; the second pass then fires the `^-` rule on it and prepends a
second bullet, giving `• • x` — the bullet count on that line goes
from one to two. -/
theorem standardize_reapply_duplicate_bullet :
    standardizeResponse "a\n - • x" = "a\n\n- • x" ∧
    standardizeResponse "a\n\n- • x" = "a\n\n• • x" ∧
    "a\n\n- • x".data.count '•' = 1 ∧
    "a\n\n• • x".data.count '•' = 2 :=
  ⟨by decide, by decide, by decide, by decide⟩

/-- C5 as amended: a line that already *begins with* one of the
substitution glyphs is left unchanged by every heading, list and note
line rule, so reapplication never stacks a glyph onto a glyph-headed
line; the duplicate in the counterexample arises only on a line whose
glyph sits mid-line behind a markdown marker that the first pass had
shielded with leading whitespace. -/
theorem glyph_lines_not_reprefixed :
    ∀ g ∈ glyphChars, ∀ l : List Char,
      hash3Line (g :: l) = g :: l ∧ hash2Line (g :: l) = g :: l ∧
      hash1Line (g :: l) = g :: l ∧ starLine (g :: l) = g :: l ∧
      dashLine (g :: l) = g :: l ∧ numLine (g :: l) = g :: l ∧
      quoteLine (g :: l) = g :: l := by
  intro g hg l
  fin_cases hg <;>
    exact lineRules_fix _ _ (by decide) (by decide) (by decide) (by decide) (by decide)

/-- Witness for the amended C5 on the bullet-headed line `• x`. -/
theorem glyph_lines_not_reprefixed_witness :
    hash3Line ('•' :: [' ', 'x']) = '•' :: [' ', 'x'] ∧
    hash2Line ('•' :: [' ', 'x']) = '•' :: [' ', 'x'] ∧
    hash1Line ('•' :: [' ', 'x']) = '•' :: [' ', 'x'] ∧
    starLine ('•' :: [' ', 'x']) = '•' :: [' ', 'x'] ∧
    dashLine ('•' :: [' ', 'x']) = '•' :: [' ', 'x'] ∧
    numLine ('•' :: [' ', 'x']) = '•' :: [' ', 'x'] ∧
    quoteLine ('•' :: [' ', 'x']) = '•' :: [' ', 'x'] :=
  glyph_lines_not_reprefixed '•' (by decide) [' ', 'x']

/-- C6 counterexample: the fenced block in `"```\nfoo\n# hi\n```"` is
replaced by the bracket markers, but the block's inner line `# hi` is
then altered by the heading rule — the output carries `💠 hi` and no
`#` at all, so the inner text did not survive the subsequent
substitutions unchanged. -/
theorem fence_inner_text_altered :
    standardizeResponse "```\nfoo\n# hi\n```" = "「foo\n\n💠 hi\n\n」" ∧
    '#' ∉ "「foo\n\n💠 hi\n\n」".data :=
  ⟨by decide, by decide⟩

/-- C6 as amended: the code-fence pass (which runs before every other
rule) replaces a fenced block by `「…」` wrapping the block's body and
continues scanning after it, but only the fence backticks themselves
are consumed: the wrapped body remains part of the working string,
and the later heading/list/quote/emphasis/link substitutions still
apply to it, as the concrete run shows (`# hi` inside the block
becomes `💠 hi`). -/
theorem fence_replacement_amended :
    (∀ inner after : List Char,
      findClose (inner ++ ('`' :: '`' :: '`' :: after)) = some (inner, after) →
      ∀ fuel : Nat,
        fencesAux (fuel + 1)
            ('`' :: '`' :: '`' :: '\n' :: (inner ++ ('`' :: '`' :: '`' :: after)))
          = ('「' :: inner) ++ ('」' :: fencesAux fuel after)) ∧
    standardizeResponse "```\nfoo\n# hi\n```" = "「foo\n\n💠 hi\n\n」" := by
  constructor
  · intro inner after h fuel
    have hdrop : List.dropWhile isLowerAZ ('\n' :: (inner ++ ('`' :: '`' :: '`' :: after)))
        = '\n' :: (inner ++ ('`' :: '`' :: '`' :: after)) := by
      rw [List.dropWhile_cons]
      simp [isLowerAZ]
    simp only [fencesAux, hdrop, h]
  · decide

/-- Witness for the amended C6: one fence with body `x`. -/
theorem fence_replacement_amended_witness :
    fencesAux 1 ('`' :: '`' :: '`' :: '\n' :: (['x'] ++ ('`' :: '`' :: '`' :: [])))
      = ('「' :: ['x']) ++ ('」' :: fencesAux 0 []) :=
  fence_replacement_amended.1 ['x'] [] (by decide) 0

end ThreeLLM
